import Mathlib

/-
Verification development for materialize's testdrive action module
(src/testdrive/src/action.rs).

The module is embedded shallowly:
* `substitute_vars` (variable substitution driven by the regular expression
  matching a dollar sign, an opening brace, one or more non-closing-brace
  characters, and a closing brace) is embedded as a character-level scanner
  `substRun` over `List Char` with an explicit scanning state, which
  reproduces the leftmost, non-overlapping match semantics of
  `Regex::replace_all` for this pattern.
* `State::reset_materialized` and `State::reset_kinesis` are embedded with
  the external SQL / Kinesis services abstracted as result oracles; the
  embedding returns the trace of statements issued / streams deleted.
* `build` is embedded over the parsed command datatypes with the
  backend-specific action builders (whose bodies live in submodules outside
  this file's source) abstracted as a record of fallible constructor
  functions; the compiler's own dispatch, substitution and timeout threading
  are reproduced from the source.
-/

deriving instance DecidableEq for Except

namespace Testdrive

/-- Variable environments: string-keyed maps.  The source uses
`HashMap<String, String>`; we embed the map as an association list where the
entry closest to the head shadows later ones (an insert is a prepend). -/
abbrev Env := List (String × String)

/-- First-match lookup, the observable behaviour of `HashMap::get`. -/
def lookupVar (vars : Env) (name : String) : Option String :=
  match vars with
  | [] => none
  | (k, v) :: rest => if k = name then some v else lookupVar rest name

/-- The opening brace character of the substitution delimiter. -/
def lbrace : Char := Char.ofNat 123

/-- The closing brace character of the substitution delimiter. -/
def rbrace : Char := Char.ofNat 125

/-- Scanner state for the substitution regular expression: either outside a
candidate match, or inside a candidate name (the reversed accumulated name
characters after a dollar sign and opening brace). -/
inductive SubstState where
  | outside
  | inName (acc : List Char)
  deriving DecidableEq

/-- Character-level embedding of
`Regex::new("\\$\\{([^}]+)\\}").replace_all(msg, ...)` together with the
error cell threaded by the closure in `substitute_vars`: scans left to
right; on a complete match with non-empty name, emits the bound value
(or the marker `#VAR-MISSING#`, recording an error) — the error recorded
last (i.e. for the rightmost missing occurrence) wins, as in the source
where each missing occurrence overwrites `err`.  A dollar sign not
followed by an opening brace, an empty name, or an unterminated name is
not a match and is emitted verbatim. -/
def substRun (vars : Env) : SubstState → List Char → List Char × Option String
  | SubstState.outside, [] => ([], none)
  | SubstState.outside, [c] => ([c], none)
  | SubstState.outside, c :: c2 :: cs2 =>
    if c = '$' then
      if c2 = lbrace then
        substRun vars (SubstState.inName []) cs2
      else
        let r := substRun vars SubstState.outside (c2 :: cs2)
        ('$' :: r.1, r.2)
    else
      let r := substRun vars SubstState.outside (c2 :: cs2)
      (c :: r.1, r.2)
  | SubstState.inName acc, [] => ('$' :: lbrace :: acc.reverse, none)
  | SubstState.inName acc, c :: cs =>
    if c = rbrace then
      if acc.isEmpty then
        let r := substRun vars SubstState.outside cs
        ('$' :: lbrace :: rbrace :: r.1, r.2)
      else
        let r := substRun vars SubstState.outside cs
        match lookupVar vars (String.mk acc.reverse) with
        | some v => (v.data ++ r.1, r.2)
        | none =>
          ("#VAR-MISSING#".data ++ r.1,
            match r.2 with
            | some e => some e
            | none => some ("unknown variable: " ++ String.mk acc.reverse))
    else
      substRun vars (SubstState.inName (c :: acc)) cs

/-- The function `substitute_vars` from the source: substitute delimited variables from
`vars` into `msg`; `Except.error` exactly when some matched name is absent
from `vars`. -/
def substitute_vars (msg : String) (vars : Env) : Except String String :=
  match substRun vars SubstState.outside msg.data with
  | (out, none) => Except.ok (String.mk out)
  | (_, some e) => Except.error e

/-- The names matched by the substitution pattern, in match order, starting
from an arbitrary scanner state.  Follows the same scan as `substRun`. -/
def varRefsRun : SubstState → List Char → List String
  | SubstState.outside, [] => []
  | SubstState.outside, [_] => []
  | SubstState.outside, c :: c2 :: cs2 =>
    if c = '$' then
      if c2 = lbrace then varRefsRun (SubstState.inName []) cs2
      else varRefsRun SubstState.outside (c2 :: cs2)
    else varRefsRun SubstState.outside (c2 :: cs2)
  | SubstState.inName _, [] => []
  | SubstState.inName acc, c :: cs =>
    if c = rbrace then
      if acc.isEmpty then varRefsRun SubstState.outside cs
      else String.mk acc.reverse :: varRefsRun SubstState.outside cs
    else varRefsRun (SubstState.inName (c :: acc)) cs

/-- The variable names referenced (i.e. matched by the pattern) in a text. -/
def varRefs (l : List Char) : List String :=
  varRefsRun SubstState.outside l

/-- The referenced names that are absent from the environment, in match
order. -/
def missingRefs (vars : Env) (l : List Char) : List String :=
  (varRefs l).filter (fun n => (lookupVar vars n).isNone)

/-- Whether a text contains the three-character sequence dollar sign,
opening brace, closing brace (the empty-name delimiter form). -/
def containsEmptyForm : List Char → Bool
  | c :: c2 :: c3 :: rest =>
    (c = '$' && c2 = lbrace && c3 = rbrace) || containsEmptyForm (c2 :: c3 :: rest)
  | _ => false

/-! ### Session reset operations

`State::reset_materialized` and `State::reset_kinesis` loop over
introspected databases / the recorded stream registry and talk to external
services.  The external calls are abstracted as oracles mapping a database
or stream name to `none` (success) or `some cause` (failure); the embedding
additionally returns the trace of SQL statements issued, respectively the
list of streams whose deletion call succeeded. -/

/-- The SQL text issued to drop one database. -/
def dropQuery (name : String) : String := "DROP DATABASE " ++ name

/-- The drop loop of `reset_materialized`: for each listed database name, in
order, issue a drop statement; the first failing statement aborts the loop
with the error context of the source's `err_ctx`.  Returns the statements
issued (the failing one included) and the error, if any. -/
def dropDatabases (dropRes : String → Option String) :
    List String → List String × Option String
  | [] => ([], none)
  | n :: ns =>
    match dropRes n with
    | some _ => ([dropQuery n], some ("resetting materialized state: " ++ dropQuery n))
    | none =>
      let r := dropDatabases dropRes ns
      (dropQuery n :: r.1, r.2)

/-- The method `State::reset_materialized`: list all databases (the listing oracle
stands for `SHOW DATABASES`), drop each listed database by name in listing
order, then recreate the default database `materialize`.  Any failure
aborts immediately with a context naming the failing statement.  Returns
the issued statements and the result. -/
def reset_materialized (listing : Except String (List String))
    (dropRes : String → Option String) (createRes : Option String) :
    List String × Except String Unit :=
  match listing with
  | Except.error _ =>
    ([], Except.error "resetting materialized state: SHOW DATABASES")
  | Except.ok names =>
    match dropDatabases dropRes names with
    | (issued, some e) => (issued, Except.error e)
    | (issued, none) =>
      match createRes with
      | some _ =>
        (issued ++ ["CREATE DATABASE materialize"],
          Except.error "resetting materialized state: CREATE DATABASE materialize")
      | none => (issued ++ ["CREATE DATABASE materialize"], Except.ok ())

/-- The part of the session `State` that `reset_kinesis` touches: the
registry of Kinesis streams created during the run. -/
structure KinesisState where
  kinesis_stream_names : List String
  deriving DecidableEq

/-- The deletion loop of `reset_kinesis`: delete each recorded stream in
registry order; the first failure aborts the loop with an error naming the
failing stream.  Returns the streams successfully deleted and the result. -/
def deleteStreams (del : String → Option String) :
    List String → List String × Except String Unit
  | [] => ([], Except.ok ())
  | s :: ss =>
    match del s with
    | some _ => ([], Except.error ("deleting Kinesis stream: " ++ s))
    | none =>
      let r := deleteStreams del ss
      (s :: r.1, r.2)

/-- The method `State::reset_kinesis`: if any streams are recorded, delete them in
registry order, aborting on the first failure.  The source only reads
`self.kinesis_stream_names`; the returned state is the resulting session
state (the registry is never written).  Also returns the streams whose
deletion succeeded and the overall result. -/
def reset_kinesis (st : KinesisState) (del : String → Option String) :
    KinesisState × List String × Except String Unit :=
  if st.kinesis_stream_names.isEmpty then (st, [], Except.ok ())
  else (st, deleteStreams del st.kinesis_stream_names)

/-! ### The action compiler `build`

The parsed command types come from `crate::parser` (outside this file's
source); their fields are modelled from the spec's data model: a builtin
command carries a name, a string-keyed argument mapping and input lines; a
SQL command carries a query and an expected result (full expected rows, or
a non-full variant untouched by `build`); a fail-SQL command carries a
query and an expected error.  The backend-specific action builders live in
the `avro_ocf`/`file`/`kafka`/`kinesis`/`sleep`/`sql` submodules and are
abstracted as a record of fallible constructors over an arbitrary action
type `α`; `parse_duration` (an external crate) is likewise a field. -/

/-- Modelled from the spec: the parser's builtin command — name, argument
mapping (string to string) and ordered input lines. -/
structure BuiltinCmd where
  name : String
  args : Env
  input : List String
  deriving DecidableEq

/-- Modelled from the spec: the parser's expected result of a SQL command —
`build` substitutes into the expected rows of the `Full` variant and leaves
any other variant untouched. -/
inductive SqlExpectedResult where
  | Full (expected_rows : List (List String))
  | Other
  deriving DecidableEq

/-- Modelled from the spec: a SQL command — query text and expected result. -/
structure SqlCmd where
  query : String
  expected_result : SqlExpectedResult
  deriving DecidableEq

/-- Modelled from the spec: a fail-SQL command — query text and expected
error text. -/
structure FailSqlCmd where
  query : String
  expected_error : String
  deriving DecidableEq

/-- Modelled from the spec: the parsed command variants. -/
inductive Command where
  | Builtin (builtin : BuiltinCmd)
  | Sql (sql : SqlCmd)
  | FailSql (sql : FailSqlCmd)
  deriving DecidableEq

/-- Modelled from the spec: a command tagged with its source position. -/
structure PosCommand where
  pos : Nat
  command : Command
  deriving DecidableEq

/-- The type `InputError` from `crate::error`: a script-authoring error message
tagged with the source position of the offending command. -/
structure InputError where
  msg : String
  pos : Nat
  deriving DecidableEq

/-- The type `PosAction`: a constructed action paired with the source position of
the command it was compiled from.  The action type is abstract. -/
structure PosAction (α : Type) where
  pos : Nat
  action : α
  deriving DecidableEq

/-- The external action builders dispatched by `build`, one field per
builder called in the source's match, plus the external duration parser
used by `set-sql-timeout`.  Durations are modelled in milliseconds. -/
structure Builders (α : Type) where
  avro_ocf_write : BuiltinCmd → Except String α
  avro_ocf_append : BuiltinCmd → Except String α
  avro_ocf_verify : BuiltinCmd → Except String α
  file_append : BuiltinCmd → Except String α
  file_delete : BuiltinCmd → Except String α
  kafka_add_partitions : BuiltinCmd → Except String α
  kafka_create_topic : BuiltinCmd → Except String α
  kafka_ingest : BuiltinCmd → Except String α
  kafka_verify : BuiltinCmd → Except String α
  kinesis_create_stream : BuiltinCmd → Except String α
  kinesis_update_shards : BuiltinCmd → Except String α
  kinesis_ingest : BuiltinCmd → Except String α
  kinesis_verify : BuiltinCmd → Except String α
  build_sleep : BuiltinCmd → Except String α
  build_sql : SqlCmd → Nat → Except String α
  build_fail_sql : FailSqlCmd → Nat → Except String α
  parse_duration : String → Except String Nat

/-- The constant `DEFAULT_SQL_TIMEOUT` (12700 milliseconds). -/
def DEFAULT_SQL_TIMEOUT : Nat := 12700

/-- Rust's `str::to_lowercase`, embedded as character-wise lowercasing (the only
use compares against the ASCII literal "default"). -/
def lowercase (s : String) : String :=
  String.mk (s.data.map Char.toLower)

/-- The fixed dispatch table of `build` for builtin names that construct an
action; pseudo-actions (`set-sql-timeout`, `set-execution-count`, `set`)
are handled by the compiler itself before consulting this table. -/
def builtinDispatch {α : Type} (B : Builders α) (b : BuiltinCmd) :
    Option (Except String α) :=
  if b.name = "avro-ocf-write" then some (B.avro_ocf_write b)
  else if b.name = "avro-ocf-append" then some (B.avro_ocf_append b)
  else if b.name = "avro-ocf-verify" then some (B.avro_ocf_verify b)
  else if b.name = "file-append" then some (B.file_append b)
  else if b.name = "file-delete" then some (B.file_delete b)
  else if b.name = "kafka-add-partitions" then some (B.kafka_add_partitions b)
  else if b.name = "kafka-create-topic" then some (B.kafka_create_topic b)
  else if b.name = "kafka-ingest" then some (B.kafka_ingest b)
  else if b.name = "kafka-verify" then some (B.kafka_verify b)
  else if b.name = "kinesis-create-stream" then some (B.kinesis_create_stream b)
  else if b.name = "kinesis-update-shards" then some (B.kinesis_update_shards b)
  else if b.name = "kinesis-ingest" then some (B.kinesis_ingest b)
  else if b.name = "kinesis-verify" then some (B.kinesis_verify b)
  else if b.name = "random-sleep" then some (B.build_sleep b)
  else none

/-- Every builtin name in the source's dispatch match, pseudo-actions
included. -/
def knownBuiltins : List String :=
  ["avro-ocf-write", "avro-ocf-append", "avro-ocf-verify", "file-append",
   "file-delete", "kafka-add-partitions", "kafka-create-topic",
   "kafka-ingest", "kafka-verify", "kinesis-create-stream",
   "kinesis-update-shards", "kinesis-ingest", "kinesis-verify",
   "set-sql-timeout", "set-execution-count", "random-sleep", "set"]

/-- Substitute variables into each argument value of a builtin, failing
with a position-tagged input error as the compiler's `wrap_err` does. -/
def substValues (vars : Env) (pos : Nat) : Env → Except InputError Env
  | [] => Except.ok []
  | (k, v) :: rest =>
    match substitute_vars v vars with
    | Except.error e => Except.error ⟨e, pos⟩
    | Except.ok v2 =>
      match substValues vars pos rest with
      | Except.error e => Except.error e
      | Except.ok r => Except.ok ((k, v2) :: r)

/-- Substitute variables into each input line (also used for the columns of
one expected row). -/
def substLines (vars : Env) (pos : Nat) : List String → Except InputError (List String)
  | [] => Except.ok []
  | s :: rest =>
    match substitute_vars s vars with
    | Except.error e => Except.error ⟨e, pos⟩
    | Except.ok s2 =>
      match substLines vars pos rest with
      | Except.error e => Except.error e
      | Except.ok r => Except.ok (s2 :: r)

/-- Substitute variables into every column of every expected row. -/
def substRows (vars : Env) (pos : Nat) :
    List (List String) → Except InputError (List (List String))
  | [] => Except.ok []
  | row :: rest =>
    match substLines vars pos row with
    | Except.error e => Except.error e
    | Except.ok row2 =>
      match substRows vars pos rest with
      | Except.error e => Except.error e
      | Except.ok r => Except.ok (row2 :: r)

/-- Substitution over a SQL command's expected result: only the rows of the
`Full` variant are substituted, as in the source's `if let`. -/
def substExpected (vars : Env) (pos : Nat) :
    SqlExpectedResult → Except InputError SqlExpectedResult
  | SqlExpectedResult.Full rows =>
    match substRows vars pos rows with
    | Except.error e => Except.error e
    | Except.ok rows2 => Except.ok (SqlExpectedResult.Full rows2)
  | SqlExpectedResult.Other => Except.ok SqlExpectedResult.Other

/-- Modelled from the spec: the parser's `Args::string` (parser outside
this file's source): look up a required string argument by key. -/
def argsString (args : Env) (key : String) : Except String String :=
  match lookupVar args key with
  | some v => Except.ok v
  | none => Except.error ("missing " ++ key ++ " argument")

/-- The method `HashMap::extend`: merge `args` into `vars` with last-write-wins per
key.  In the association-list embedding an insert is a prepend, so later
entries of `args` end up closest to the head. -/
def extendVars (vars args : Env) : Env :=
  args.foldl (fun v kv => kv :: v) vars

/-- The command loop of `build`: processes commands in source order,
threading the variable environment and the current SQL timeout, and
collecting position-tagged actions.  Compilation is all-or-nothing: the
first failure aborts with a position-tagged input error.  The final
environment and timeout are returned alongside the actions to make the
threading explicit. -/
def buildLoop {α : Type} (B : Builders α) :
    List PosCommand → Env → Nat →
    Except InputError (List (PosAction α) × Env × Nat)
  | [], vars, t => Except.ok ([], vars, t)
  | cmd :: rest, vars, t =>
    match cmd.command with
    | Command.Builtin b =>
      match substValues vars cmd.pos b.args with
      | Except.error e => Except.error e
      | Except.ok args2 =>
        match substLines vars cmd.pos b.input with
        | Except.error e => Except.error e
        | Except.ok input2 =>
          if b.name = "set-sql-timeout" then
            match argsString args2 "duration" with
            | Except.error e => Except.error ⟨e, cmd.pos⟩
            | Except.ok duration =>
              if lowercase duration = "default" then
                buildLoop B rest vars DEFAULT_SQL_TIMEOUT
              else
                match B.parse_duration duration with
                | Except.error e => Except.error ⟨e, cmd.pos⟩
                | Except.ok d => buildLoop B rest vars d
          else if b.name = "set-execution-count" then
            buildLoop B rest vars t
          else if b.name = "set" then
            buildLoop B rest (extendVars vars args2) t
          else
            match builtinDispatch B ⟨b.name, args2, input2⟩ with
            | some (Except.error e) => Except.error ⟨e, cmd.pos⟩
            | some (Except.ok a) =>
              match buildLoop B rest vars t with
              | Except.error e => Except.error e
              | Except.ok (acts, v2, t2) =>
                Except.ok (⟨cmd.pos, a⟩ :: acts, v2, t2)
            | none =>
              Except.error ⟨"unknown built-in command " ++ b.name, cmd.pos⟩
    | Command.Sql s =>
      match substitute_vars s.query vars with
      | Except.error e => Except.error ⟨e, cmd.pos⟩
      | Except.ok q2 =>
        match substExpected vars cmd.pos s.expected_result with
        | Except.error e => Except.error e
        | Except.ok er2 =>
          match B.build_sql ⟨q2, er2⟩ t with
          | Except.error e => Except.error ⟨e, cmd.pos⟩
          | Except.ok a =>
            match buildLoop B rest vars t with
            | Except.error e => Except.error e
            | Except.ok (acts, v2, t2) =>
              Except.ok (⟨cmd.pos, a⟩ :: acts, v2, t2)
    | Command.FailSql s =>
      match substitute_vars s.query vars with
      | Except.error e => Except.error ⟨e, cmd.pos⟩
      | Except.ok q2 =>
        match substitute_vars s.expected_error vars with
        | Except.error e => Except.error ⟨e, cmd.pos⟩
        | Except.ok err2 =>
          match B.build_fail_sql ⟨q2, err2⟩ t with
          | Except.error e => Except.error ⟨e, cmd.pos⟩
          | Except.ok a =>
            match buildLoop B rest vars t with
            | Except.error e => Except.error e
            | Except.ok (acts, v2, t2) =>
              Except.ok (⟨cmd.pos, a⟩ :: acts, v2, t2)

/-- The function `build`: the source first seeds the environment with the session's
`testdrive.*` built-in variables (computed with network, filesystem and
randomness I/O from the live session) and then runs the command loop with
the default SQL timeout.  The seeding I/O is abstracted as the initial
environment `vars0`; only the action list is the compiler's output. -/
def build {α : Type} (B : Builders α) (vars0 : Env) (cmds : List PosCommand) :
    Except InputError (List (PosAction α)) :=
  match buildLoop B cmds vars0 DEFAULT_SQL_TIMEOUT with
  | Except.error e => Except.error e
  | Except.ok (acts, _, _) => Except.ok acts

/-- Whether a command produces an action in the output list (everything
except the three pseudo-actions). -/
def producesAction (c : PosCommand) : Bool :=
  match c.command with
  | Command.Builtin b =>
    if b.name = "set-sql-timeout" ∨ b.name = "set-execution-count" ∨ b.name = "set"
    then false else true
  | _ => true

/-- A `set-sql-timeout` command with a literal duration argument. -/
def setSqlTimeoutCmd (p : Nat) (d : String) : PosCommand :=
  ⟨p, Command.Builtin ⟨"set-sql-timeout", [("duration", d)], []⟩⟩

/-- Builders instance used for concrete evaluations: every builder returns
a unit action, and the duration parser knows the string "30s". -/
def sampleBuilders : Builders Unit :=
  ⟨fun _ => Except.ok (), fun _ => Except.ok (), fun _ => Except.ok (),
   fun _ => Except.ok (), fun _ => Except.ok (), fun _ => Except.ok (),
   fun _ => Except.ok (), fun _ => Except.ok (), fun _ => Except.ok (),
   fun _ => Except.ok (), fun _ => Except.ok (), fun _ => Except.ok (),
   fun _ => Except.ok (), fun _ => Except.ok (),
   fun _ _ => Except.ok (), fun _ _ => Except.ok (),
   fun s => if s = "30s" then Except.ok 30000 else Except.error ("invalid duration " ++ s)⟩

/-! ### Substitution lemmas -/

theorem lookupVar_mem {vars : Env} {n v : String} (h : lookupVar vars n = some v) :
    (n, v) ∈ vars := by
  induction vars with
  | nil => simp [lookupVar] at h
  | cons p rest ih =>
    rcases p with ⟨k, w⟩
    by_cases hk : k = n
    · subst hk
      simp [lookupVar] at h
      subst h
      exact List.mem_cons_self _ _
    · simp [lookupVar, hk] at h
      exact List.mem_cons_of_mem _ (ih h)

theorem varRefsRun_cons_ne {c : Char} (hc : c ≠ '$') (x : List Char) :
    varRefsRun SubstState.outside (c :: x) = varRefsRun SubstState.outside x := by
  cases x <;> simp [varRefsRun, hc]

theorem varRefsRun_dollar_brace (x : List Char) :
    varRefsRun SubstState.outside ('$' :: lbrace :: x) =
      varRefsRun (SubstState.inName []) x := by
  simp [varRefsRun]

theorem varRefsRun_dollar_ne {c2 : Char} (hc2 : c2 ≠ lbrace) (x : List Char) :
    varRefsRun SubstState.outside ('$' :: c2 :: x) =
      varRefsRun SubstState.outside (c2 :: x) := by
  simp [varRefsRun, hc2]

theorem varRefsRun_inName_no_rbrace :
    ∀ (m : List Char) (acc : List Char), rbrace ∉ m →
      varRefsRun (SubstState.inName acc) m = []
  | [], _, _ => by simp [varRefsRun]
  | c :: cs, acc, h => by
    have hc : c ≠ rbrace := fun hh => h (hh ▸ List.mem_cons_self c cs)
    have hcs : rbrace ∉ cs := fun hh => h (List.mem_cons_of_mem c hh)
    simp [varRefsRun, hc, varRefsRun_inName_no_rbrace cs (c :: acc) hcs]

theorem varRefsRun_prefix_id :
    ∀ (a : List Char), '$' ∉ a → ∀ (b : List Char),
      varRefsRun SubstState.outside (a ++ b) = varRefsRun SubstState.outside b
  | [], _, b => by simp
  | c :: a', ha, b => by
    have hc : c ≠ '$' := fun h => ha (h ▸ List.mem_cons_self c a')
    have ha' : '$' ∉ a' := fun h => ha (List.mem_cons_of_mem c h)
    rw [List.cons_append, varRefsRun_cons_ne hc, varRefsRun_prefix_id a' ha' b]

theorem substRun_prefix_id (vars : Env) :
    ∀ (a : List Char), '$' ∉ a → ∀ (b : List Char),
      substRun vars SubstState.outside (a ++ b) =
        (a ++ (substRun vars SubstState.outside b).1,
          (substRun vars SubstState.outside b).2)
  | [], _, b => by simp
  | c :: a', ha, b => by
    have hc : c ≠ '$' := fun h => ha (h ▸ List.mem_cons_self c a')
    have ha' : '$' ∉ a' := fun h => ha (List.mem_cons_of_mem c h)
    rcases hab : a' ++ b with _ | ⟨d, ds⟩
    · rcases List.append_eq_nil.mp hab with ⟨h1, h2⟩
      subst h1; subst h2
      simp [substRun, hc]
    · show substRun vars SubstState.outside (c :: (a' ++ b)) = _
      rw [hab]
      simp only [substRun, if_neg hc]
      rw [← hab, substRun_prefix_id vars a' ha' b]
      simp

theorem substRun_id {vars : Env} {l : List Char} (hl : '$' ∉ l) :
    substRun vars SubstState.outside l = (l, none) := by
  have := substRun_prefix_id vars l hl []
  simpa [substRun] using this

theorem substitute_vars_id {vars : Env} {s : String} (hs : '$' ∉ s.data) :
    substitute_vars s vars = Except.ok s := by
  simp [substitute_vars, substRun_id hs]

/-- The error produced by a scan whose matched names were `refs`: the last
missing name wins (each missing occurrence overwrites the error cell). -/
def lastMissingErr (vars : Env) (refs : List String) : Option String :=
  ((refs.filter (fun n => (lookupVar vars n).isNone)).getLast?).map
    (fun n => "unknown variable: " ++ n)

theorem getLast?_cons_form {α : Type} (a : α) (l : List α) :
    (a :: l).getLast? = some (l.getLast?.getD a) := by
  induction l generalizing a with
  | nil => simp
  | cons b l' ih => rw [List.getLast?_cons_cons, ih b]; simp [ih]

theorem lastMissingErr_cons_missing {vars : Env} {n : String}
    (h : lookupVar vars n = none) (refs : List String) :
    lastMissingErr vars (n :: refs) =
      some ((lastMissingErr vars refs).getD ("unknown variable: " ++ n)) := by
  unfold lastMissingErr
  rw [List.filter_cons_of_pos (by simp [h]), getLast?_cons_form]
  cases hfl : ((refs.filter (fun n => (lookupVar vars n).isNone)).getLast?) <;>
    simp [hfl]

theorem lastMissingErr_cons_present {vars : Env} {n v : String}
    (h : lookupVar vars n = some v) (refs : List String) :
    lastMissingErr vars (n :: refs) = lastMissingErr vars refs := by
  simp [lastMissingErr, List.filter_cons, h]

/-- The error component of the scan is determined by the missing referenced
names: it is the message for the last missing one. -/
theorem substRun_snd (vars : Env) :
    ∀ (st : SubstState) (l : List Char),
      (substRun vars st l).2 = lastMissingErr vars (varRefsRun st l)
  | SubstState.outside, [] => by simp [substRun, varRefsRun, lastMissingErr]
  | SubstState.inName acc, [] => by simp [substRun, varRefsRun, lastMissingErr]
  | SubstState.outside, [c] => by simp [substRun, varRefsRun, lastMissingErr]
  | SubstState.outside, c :: c2 :: cs2 => by
    by_cases hc : c = '$'
    · subst hc
      by_cases hc2 : c2 = lbrace
      · subst hc2
        simp [substRun, varRefsRun, substRun_snd vars (SubstState.inName []) cs2]
      · simp [substRun, varRefsRun, hc2,
          substRun_snd vars SubstState.outside (c2 :: cs2)]
    · simp [substRun, varRefsRun, hc,
        substRun_snd vars SubstState.outside (c2 :: cs2)]
  | SubstState.inName acc, c :: cs => by
    by_cases hc : c = rbrace
    · subst hc
      by_cases hacc : acc.isEmpty
      · simp [substRun, varRefsRun, hacc,
          substRun_snd vars SubstState.outside cs]
      · rcases hlook : lookupVar vars (String.mk acc.reverse) with _ | v
        · have hr := substRun_snd vars SubstState.outside cs
          have hcons := lastMissingErr_cons_missing hlook
            (varRefsRun SubstState.outside cs)
          simp [substRun, varRefsRun, hacc, hlook, hr, hcons]
          cases hfl : lastMissingErr vars (varRefsRun SubstState.outside cs) <;>
            simp [hfl]
        · have hcons := lastMissingErr_cons_present hlook
            (varRefsRun SubstState.outside cs)
          simp [substRun, varRefsRun, hacc, hlook, hcons,
            substRun_snd vars SubstState.outside cs]
    · simp [substRun, varRefsRun, hc,
        substRun_snd vars (SubstState.inName (c :: acc)) cs]

theorem varRefsRun_dollar_cons {x : List Char} (hx : x.head? ≠ some lbrace) :
    varRefsRun SubstState.outside ('$' :: x) = varRefsRun SubstState.outside x := by
  cases x with
  | nil => simp [varRefsRun]
  | cons d ds =>
    have hd : d ≠ lbrace := by simpa using hx
    simp [varRefsRun, hd]

/-- A substitution value that cannot create or extend a match when spliced
into scanned output: non-empty, with no dollar sign and no opening brace. -/
def cleanVal (v : String) : Prop :=
  v.data ≠ [] ∧ '$' ∉ v.data ∧ lbrace ∉ v.data

instance cleanValDecidable (v : String) : Decidable (cleanVal v) :=
  inferInstanceAs (Decidable (_ ∧ _ ∧ _))

/-- Scanner-state well-formedness: an in-name accumulator never contains a
closing brace. -/
def stateOk : SubstState → Prop
  | SubstState.outside => True
  | SubstState.inName acc => rbrace ∉ acc

/-- Relation between the heads of the scanned input and of the produced
output, ruling out matches that span an emitted dollar sign and the
following output. -/
def headOk : SubstState → List Char → List Char → Prop
  | SubstState.outside, l, out => out.head? = some lbrace → l.head? = some lbrace
  | SubstState.inName _, _, out => out.head? ≠ some lbrace

/-- If every environment value is clean, the scanner's output contains no
matches of the substitution pattern at all. -/
theorem substRun_no_refs (vars : Env) (hclean : ∀ p ∈ vars, cleanVal p.2) :
    ∀ (st : SubstState) (l : List Char), stateOk st →
      varRefs (substRun vars st l).1 = [] ∧ headOk st l (substRun vars st l).1
  | SubstState.outside, [] => by
    intro _
    simp [substRun, varRefs, varRefsRun, headOk]
  | SubstState.outside, [c] => by
    intro _
    refine ⟨by simp [substRun, varRefs, varRefsRun], ?_⟩
    simp only [substRun, headOk]
    exact fun h => h
  | SubstState.outside, c :: c2 :: cs2 => by
    intro _
    by_cases hc : c = '$'
    · subst hc
      by_cases hc2 : c2 = lbrace
      · subst hc2
        have ih := substRun_no_refs vars hclean (SubstState.inName []) cs2
          (by simp [stateOk])
        refine ⟨by simpa [substRun] using ih.1, ?_⟩
        have h2 := ih.2
        simp only [headOk] at h2
        simp only [substRun, headOk]
        intro h
        exact absurd h h2
      · have ih := substRun_no_refs vars hclean SubstState.outside (c2 :: cs2)
          trivial
        have hhead : (substRun vars SubstState.outside (c2 :: cs2)).1.head? ≠
            some lbrace := by
          intro h
          have h2 := ih.2
          simp only [headOk] at h2
          have h3 := h2 h
          simp at h3
          exact hc2 h3
        have hsplit : (substRun vars SubstState.outside ('$' :: c2 :: cs2)).1 =
            '$' :: (substRun vars SubstState.outside (c2 :: cs2)).1 := by
          simp [substRun, hc2]
        refine ⟨?_, ?_⟩
        · rw [hsplit, varRefs, varRefsRun_dollar_cons hhead]
          exact ih.1
        · simp only [headOk, hsplit]
          intro h
          simp at h
          exact absurd h (by decide)
    · have ih := substRun_no_refs vars hclean SubstState.outside (c2 :: cs2)
        trivial
      have hsplit : (substRun vars SubstState.outside (c :: c2 :: cs2)).1 =
          c :: (substRun vars SubstState.outside (c2 :: cs2)).1 := by
        simp [substRun, hc]
      refine ⟨?_, ?_⟩
      · rw [hsplit, varRefs, varRefsRun_cons_ne hc]
        exact ih.1
      · simp only [headOk, hsplit]
        intro h
        exact h
  | SubstState.inName acc, [] => by
    intro hst
    simp only [stateOk] at hst
    have hnr : rbrace ∉ acc.reverse := by simpa using hst
    have hsplit : (substRun vars (SubstState.inName acc) []).1 =
        '$' :: lbrace :: acc.reverse := by
      simp [substRun]
    refine ⟨?_, ?_⟩
    · rw [hsplit, varRefs, varRefsRun_dollar_brace]
      exact varRefsRun_inName_no_rbrace acc.reverse [] hnr
    · simp only [headOk, hsplit]
      intro h
      simp at h
      exact absurd h (by decide)
  | SubstState.inName acc, c :: cs => by
    intro hst
    simp only [stateOk] at hst
    by_cases hc : c = rbrace
    · subst hc
      have ih := substRun_no_refs vars hclean SubstState.outside cs trivial
      by_cases hacc : acc.isEmpty
      · have hsplit : (substRun vars (SubstState.inName acc) (rbrace :: cs)).1 =
            '$' :: lbrace :: rbrace ::
              (substRun vars SubstState.outside cs).1 := by
          simp [substRun, hacc]
        refine ⟨?_, ?_⟩
        · rw [hsplit, varRefs, varRefsRun_dollar_brace]
          simpa [varRefsRun] using ih.1
        · simp only [headOk, hsplit]
          intro h
          simp at h
          exact absurd h (by decide)
      · rcases hlook : lookupVar vars (String.mk acc.reverse) with _ | v
        · have hsplit : (substRun vars (SubstState.inName acc)
              (rbrace :: cs)).1 = "#VAR-MISSING#".data ++
              (substRun vars SubstState.outside cs).1 := by
            simp [substRun, hacc, hlook]
          refine ⟨?_, ?_⟩
          · rw [hsplit, varRefs, varRefsRun_prefix_id _ (by decide)]
            exact ih.1
          · simp only [headOk, hsplit]
            intro h
            simp at h
            exact absurd h (by decide)
        · have hv : cleanVal v := hclean _ (lookupVar_mem hlook)
          have hsplit : (substRun vars (SubstState.inName acc)
              (rbrace :: cs)).1 = v.data ++
              (substRun vars SubstState.outside cs).1 := by
            simp [substRun, hacc, hlook]
          refine ⟨?_, ?_⟩
          · rw [hsplit, varRefs, varRefsRun_prefix_id _ hv.2.1]
            exact ih.1
          · simp only [headOk, hsplit]
            rcases hvd : v.data with _ | ⟨d, ds⟩
            · exact absurd hvd hv.1
            · have hd : d ≠ lbrace := by
                intro h
                exact hv.2.2 (hvd ▸ h ▸ List.mem_cons_self d ds)
              simp [hvd, hd]
    · have hstok : stateOk (SubstState.inName (c :: acc)) := by
        simp only [stateOk, List.mem_cons]
        intro h
        rcases h with h | h
        · exact hc h.symm
        · exact hst h
      have ih := substRun_no_refs vars hclean (SubstState.inName (c :: acc)) cs
        hstok
      have heq : substRun vars (SubstState.inName acc) (c :: cs) =
          substRun vars (SubstState.inName (c :: acc)) cs := by
        simp [substRun, hc]
      refine ⟨heq ▸ ih.1, ?_⟩
      have h2 := ih.2
      simp only [headOk] at h2 ⊢
      rw [heq]
      exact h2


/-! ### Compiler lemmas -/

theorem substValues_clean (vars : Env) (pos : Nat) :
    ∀ (args : Env), (∀ kv ∈ args, '$' ∉ (kv.2 : String).data) →
      substValues vars pos args = Except.ok args
  | [], _ => rfl
  | (k, v) :: rest, h => by
    have hv : '$' ∉ v.data := h (k, v) (List.mem_cons_self _ _)
    have hrest : ∀ kv ∈ rest, '$' ∉ (kv.2 : String).data :=
      fun kv hkv => h kv (List.mem_cons_of_mem _ hkv)
    simp [substValues, substitute_vars_id hv,
      substValues_clean vars pos rest hrest]

theorem substLines_clean (vars : Env) (pos : Nat) :
    ∀ (lines : List String), (∀ s ∈ lines, '$' ∉ (s : String).data) →
      substLines vars pos lines = Except.ok lines
  | [], _ => rfl
  | s :: rest, h => by
    have hs : '$' ∉ s.data := h s (List.mem_cons_self _ _)
    have hrest : ∀ x ∈ rest, '$' ∉ (x : String).data :=
      fun x hx => h x (List.mem_cons_of_mem _ hx)
    simp [substLines, substitute_vars_id hs,
      substLines_clean vars pos rest hrest]

theorem extendVars_eq : ∀ (args vars : Env),
    extendVars vars args = args.reverse ++ vars
  | [], vars => by simp [extendVars]
  | kv :: rest, vars => by
    have ih := extendVars_eq rest (kv :: vars)
    simp only [extendVars, List.foldl_cons] at ih ⊢
    rw [ih]
    simp

theorem lookupVar_append : ∀ (a b : Env) (k : String),
    lookupVar (a ++ b) k =
      match lookupVar a k with
      | some v => some v
      | none => lookupVar b k
  | [], b, k => by simp [lookupVar]
  | (k1, v1) :: a', b, k => by
    by_cases hk : k1 = k
    · simp [lookupVar, hk]
    · simp [lookupVar, hk, lookupVar_append a' b k]

theorem builtinDispatch_unknown {α : Type} (B : Builders α) (b : BuiltinCmd)
    (hname : b.name ∉ knownBuiltins) : builtinDispatch B b = none := by
  simp [knownBuiltins] at hname
  obtain ⟨h1, h2, h3, h4, h5, h6, h7, h8, h9, h10, h11, h12, h13, h14, h15,
    h16, h17⟩ := hname
  simp [builtinDispatch, h1, h2, h3, h4, h5, h6, h7, h8, h9, h10, h11, h12,
    h13, h16]

/-- Compiling a concatenation of command lists is compiling the first, then
the second from the resulting environment and timeout, concatenating the
action lists. -/
theorem buildLoop_append {α : Type} (B : Builders α) :
    ∀ (cs1 cs2 : List PosCommand) (vars : Env) (t : Nat),
      buildLoop B (cs1 ++ cs2) vars t =
        match buildLoop B cs1 vars t with
        | Except.error e => Except.error e
        | Except.ok (a1, v1, t1) =>
          match buildLoop B cs2 v1 t1 with
          | Except.error e => Except.error e
          | Except.ok (a2, v2, t2) => Except.ok (a1 ++ a2, v2, t2)
  | [], cs2, vars, t => by
    rcases h : buildLoop B cs2 vars t with e | ⟨a2, v2, t2⟩ <;>
      simp [buildLoop, h]
  | cmd :: cs1, cs2, vars, t => by
    rcases cmd with ⟨p, c⟩
    cases c with
    | Builtin b =>
      rcases hargs : substValues vars p b.args with e | args2
      · simp [buildLoop, hargs]
      rcases hinput : substLines vars p b.input with e | input2
      · simp [buildLoop, hargs, hinput]
      by_cases hst : b.name = "set-sql-timeout"
      · rcases hdur : argsString args2 "duration" with e | dur
        · simp [buildLoop, hargs, hinput, hst, hdur]
        by_cases hdef : lowercase dur = "default"
        · simp [buildLoop, hargs, hinput, hst, hdur, hdef,
            buildLoop_append B cs1 cs2 vars DEFAULT_SQL_TIMEOUT]
        · rcases hpd : B.parse_duration dur with e | dd
          · simp [buildLoop, hargs, hinput, hst, hdur, hdef, hpd]
          · simp [buildLoop, hargs, hinput, hst, hdur, hdef, hpd,
              buildLoop_append B cs1 cs2 vars dd]
      by_cases hsec : b.name = "set-execution-count"
      · simp [buildLoop, hargs, hinput, hst, hsec,
          buildLoop_append B cs1 cs2 vars t]
      by_cases hset : b.name = "set"
      · simp [buildLoop, hargs, hinput, hst, hsec, hset,
          buildLoop_append B cs1 cs2 (extendVars vars args2) t]
      rcases hdisp : builtinDispatch B ⟨b.name, args2, input2⟩ with _ | r
      · simp [buildLoop, hargs, hinput, hst, hsec, hset, hdisp]
      rcases r with e | a
      · simp [buildLoop, hargs, hinput, hst, hsec, hset, hdisp]
      · have ih := buildLoop_append B cs1 cs2 vars t
        simp only [buildLoop, hargs, hinput, hst, hsec, hset, hdisp,
          List.cons_append, if_neg, if_false, ih]
        rcases h1 : buildLoop B cs1 vars t with e | ⟨a1, v1, t1⟩
        · simp [buildLoop, hargs, hinput, hst, hsec, hset, hdisp, ih, h1]
        rcases h2 : buildLoop B cs2 v1 t1 with e | ⟨a2, v2, t2⟩ <;>
          simp [buildLoop, hargs, hinput, hst, hsec, hset, hdisp, ih, h1, h2]
    | Sql s =>
      rcases hq : substitute_vars s.query vars with e | q2
      · simp [buildLoop, hq]
      rcases her : substExpected vars p s.expected_result with e | er2
      · simp [buildLoop, hq, her]
      rcases hbs : B.build_sql ⟨q2, er2⟩ t with e | a
      · simp [buildLoop, hq, her, hbs]
      · have ih := buildLoop_append B cs1 cs2 vars t
        rcases h1 : buildLoop B cs1 vars t with e | ⟨a1, v1, t1⟩
        · simp [buildLoop, hq, her, hbs, ih, h1]
        rcases h2 : buildLoop B cs2 v1 t1 with e | ⟨a2, v2, t2⟩ <;>
          simp [buildLoop, hq, her, hbs, ih, h1, h2]
    | FailSql s =>
      rcases hq : substitute_vars s.query vars with e | q2
      · simp [buildLoop, hq]
      rcases her : substitute_vars s.expected_error vars with e | er2
      · simp [buildLoop, hq, her]
      rcases hbs : B.build_fail_sql ⟨q2, er2⟩ t with e | a
      · simp [buildLoop, hq, her, hbs]
      · have ih := buildLoop_append B cs1 cs2 vars t
        rcases h1 : buildLoop B cs1 vars t with e | ⟨a1, v1, t1⟩
        · simp [buildLoop, hq, her, hbs, ih, h1]
        rcases h2 : buildLoop B cs2 v1 t1 with e | ⟨a2, v2, t2⟩ <;>
          simp [buildLoop, hq, her, hbs, ih, h1, h2]

/-- On success the output positions are exactly the positions of the
action-producing commands, in source order. -/
theorem buildLoop_positions {α : Type} (B : Builders α) :
    ∀ (cmds : List PosCommand) (vars : Env) (t : Nat)
      (res : List (PosAction α) × Env × Nat),
      buildLoop B cmds vars t = Except.ok res →
      res.1.map (fun a => a.pos) =
        (cmds.filter producesAction).map (fun c => c.pos)
  | [], vars, t, res => by
    intro h
    simp [buildLoop] at h
    simp [← h]
  | cmd :: cmds, vars, t, res => by
    intro h
    rcases cmd with ⟨p, c⟩
    cases c with
    | Builtin b =>
      rcases hargs : substValues vars p b.args with e | args2
      · simp [buildLoop, hargs] at h
      rcases hinput : substLines vars p b.input with e | input2
      · simp [buildLoop, hargs, hinput] at h
      by_cases hst : b.name = "set-sql-timeout"
      · rcases hdur : argsString args2 "duration" with e | dur
        · simp [buildLoop, hargs, hinput, hst, hdur] at h
        by_cases hdef : lowercase dur = "default"
        · simp only [buildLoop, hargs, hinput, hst, hdef, if_pos,
            if_true] at h
          rw [buildLoop_positions B cmds vars DEFAULT_SQL_TIMEOUT res
            (by simpa [hdur, hdef] using h)]
          simp [producesAction, hst]
        · rcases hpd : B.parse_duration dur with e | dd
          · simp [buildLoop, hargs, hinput, hst, hdur, hdef, hpd] at h
          · rw [buildLoop_positions B cmds vars dd res
              (by simpa [buildLoop, hargs, hinput, hst, hdur, hdef, hpd]
                using h)]
            simp [producesAction, hst]
      by_cases hsec : b.name = "set-execution-count"
      · rw [buildLoop_positions B cmds vars t res
          (by simpa [buildLoop, hargs, hinput, hst, hsec] using h)]
        simp [producesAction, hsec]
      by_cases hset : b.name = "set"
      · rw [buildLoop_positions B cmds (extendVars vars args2) t res
          (by simpa [buildLoop, hargs, hinput, hst, hsec, hset] using h)]
        simp [producesAction, hset]
      rcases hdisp : builtinDispatch B ⟨b.name, args2, input2⟩ with _ | r
      · simp [buildLoop, hargs, hinput, hst, hsec, hset, hdisp] at h
      rcases r with e | a
      · simp [buildLoop, hargs, hinput, hst, hsec, hset, hdisp] at h
      rcases hr : buildLoop B cmds vars t with e | ⟨acts, v2, t2⟩
      · simp [buildLoop, hargs, hinput, hst, hsec, hset, hdisp, hr] at h
      · simp [buildLoop, hargs, hinput, hst, hsec, hset, hdisp, hr] at h
        have ih := buildLoop_positions B cmds vars t (acts, v2, t2) hr
        simp [← h, producesAction, hst, hsec, hset, ih]
    | Sql s =>
      rcases hq : substitute_vars s.query vars with e | q2
      · simp [buildLoop, hq] at h
      rcases her : substExpected vars p s.expected_result with e | er2
      · simp [buildLoop, hq, her] at h
      rcases hbs : B.build_sql ⟨q2, er2⟩ t with e | a
      · simp [buildLoop, hq, her, hbs] at h
      rcases hr : buildLoop B cmds vars t with e | ⟨acts, v2, t2⟩
      · simp [buildLoop, hq, her, hbs, hr] at h
      · simp [buildLoop, hq, her, hbs, hr] at h
        have ih := buildLoop_positions B cmds vars t (acts, v2, t2) hr
        simp [← h, producesAction, ih]
    | FailSql s =>
      rcases hq : substitute_vars s.query vars with e | q2
      · simp [buildLoop, hq] at h
      rcases her : substitute_vars s.expected_error vars with e | er2
      · simp [buildLoop, hq, her] at h
      rcases hbs : B.build_fail_sql ⟨q2, er2⟩ t with e | a
      · simp [buildLoop, hq, her, hbs] at h
      rcases hr : buildLoop B cmds vars t with e | ⟨acts, v2, t2⟩
      · simp [buildLoop, hq, her, hbs, hr] at h
      · simp [buildLoop, hq, her, hbs, hr] at h
        have ih := buildLoop_positions B cmds vars t (acts, v2, t2) hr
        simp [← h, producesAction, ih]

/-! ### Claims about `substitute_vars` (C1, C2, C9) -/

/-- C1, counterexample: the claim "for every text T and environment E
binding every name referenced in T, substitution succeeds and the result
contains no remaining delimited occurrences" fails, because replacement
values are not rescanned but also not protected: with the text consisting
of a single reference to x and the environment binding x to a string that
itself is a delimited reference, every referenced name is bound and
substitution succeeds, yet the output still contains a delimited
occurrence (it has a referenced name). -/
theorem C1_counterexample :
    (∀ n ∈ varRefs ("$\x7bx\x7d" : String).data,
      (lookupVar [("x", "$\x7bx\x7d")] n).isSome) ∧
    substitute_vars "$\x7bx\x7d" [("x", "$\x7bx\x7d")] =
      Except.ok "$\x7bx\x7d" ∧
    varRefs ("$\x7bx\x7d" : String).data ≠ [] := by
  refine ⟨by decide, by decide, by decide⟩

/-- C1 (amended): for every text and environment binding every name
referenced in the text, substitution succeeds — with no further condition
on the environment's values; if additionally every environment value is
non-empty and contains neither a dollar sign nor an opening brace, the
returned string contains no remaining delimited occurrences. -/
theorem C1_theorem (msg : String) (vars : Env)
    (hbound : ∀ n ∈ varRefs msg.data, (lookupVar vars n).isSome) :
    (∃ out : String, substitute_vars msg vars = Except.ok out) ∧
    ((∀ p ∈ vars, cleanVal p.2) →
      ∀ out : String, substitute_vars msg vars = Except.ok out →
        varRefs out.data = []) := by
  have herr : (substRun vars SubstState.outside msg.data).2 = none := by
    rw [substRun_snd]
    have hfil : (varRefsRun SubstState.outside msg.data).filter
        (fun n => (lookupVar vars n).isNone) = [] := by
      rw [List.filter_eq_nil_iff]
      intro n hn
      have hb := hbound n hn
      rcases hlv : lookupVar vars n with _ | v
      · rw [hlv] at hb
        simp at hb
      · simp
    simp [lastMissingErr, hfil]
  rcases hsr : substRun vars SubstState.outside msg.data with ⟨out0, err⟩
  rw [hsr] at herr
  simp at herr
  subst herr
  constructor
  · exact ⟨String.mk out0, by simp [substitute_vars, hsr]⟩
  · intro hclean out hout
    have hno := substRun_no_refs vars hclean SubstState.outside msg.data
      trivial
    rw [hsr] at hno
    simp [substitute_vars, hsr] at hout
    subst hout
    simpa [varRefs] using hno.1

/-- C1, witness of the amended theorem at a concrete input whose
environment holds a dirty value (a delimited reference): the success half
applies regardless, since its hypothesis is boundness alone. -/
theorem C1_witness :
    (∃ out : String,
      substitute_vars "$\x7bx\x7d and $\x7by\x7d"
        [("x", "1"), ("y", "$\x7bx\x7d")] = Except.ok out) ∧
    ((∀ p ∈ [("x", "1"), ("y", "$\x7bx\x7d")], cleanVal p.2) →
      ∀ out : String,
        substitute_vars "$\x7bx\x7d and $\x7by\x7d"
          [("x", "1"), ("y", "$\x7bx\x7d")] = Except.ok out →
        varRefs out.data = []) :=
  C1_theorem "$\x7bx\x7d and $\x7by\x7d" [("x", "1"), ("y", "$\x7bx\x7d")]
    (by decide)

/-- C2: for every text referencing at least one name absent from the
environment, substitution fails; the reported error names the last missing
referenced name (evidence that scanning processed all other occurrences
before failing, rather than stopping at the first missing one), a name
that is referenced in the text and absent from the environment. -/
theorem C2_theorem (msg : String) (vars : Env)
    (hmiss : missingRefs vars msg.data ≠ []) :
    ∃ n : String, n ∈ varRefs msg.data ∧ lookupVar vars n = none ∧
      (missingRefs vars msg.data).getLast? = some n ∧
      substitute_vars msg vars =
        Except.error ("unknown variable: " ++ n) := by
  rcases hgl : (missingRefs vars msg.data).getLast? with _ | n
  · rw [List.getLast?_eq_none_iff] at hgl
    exact absurd hgl hmiss
  refine ⟨n, ?_, ?_, rfl, ?_⟩
  · have hmem := List.mem_of_getLast?_eq_some hgl
    exact ((List.mem_filter.mp hmem).1)
  · have hmem := List.mem_of_getLast?_eq_some hgl
    have := (List.mem_filter.mp hmem).2
    simpa using this
  · have herr := substRun_snd vars SubstState.outside msg.data
    have hlast : lastMissingErr vars (varRefsRun SubstState.outside msg.data) =
        some ("unknown variable: " ++ n) := by
      simp only [lastMissingErr]
      have : ((varRefsRun SubstState.outside msg.data).filter
          (fun n => (lookupVar vars n).isNone)).getLast? = some n := hgl
      rw [this]
      rfl
    rw [hlast] at herr
    rcases hsr : substRun vars SubstState.outside msg.data with ⟨out, err⟩
    rw [hsr] at herr
    simp at herr
    subst herr
    simp [substitute_vars, hsr]

/-- C2, witness at a concrete input with two missing names: the reported
one is the last. -/
theorem C2_witness :
    ∃ n : String, n ∈ varRefs ("$\x7ba\x7d$\x7bb\x7d" : String).data ∧
      lookupVar [] n = none ∧
      (missingRefs [] ("$\x7ba\x7d$\x7bb\x7d" : String).data).getLast? = some n ∧
      substitute_vars "$\x7ba\x7d$\x7bb\x7d" [] =
        Except.error ("unknown variable: " ++ n) :=
  C2_theorem "$\x7ba\x7d$\x7bb\x7d" [] (by decide)

/-- C9, counterexample: the claim "for every text and environment, an
occurrence of the empty-name form is left verbatim in the output" fails,
because such an occurrence can be absorbed into a surrounding match whose
name contains the dollar sign and opening brace: in the text consisting of
a dollar sign, opening brace, x, dollar sign, opening brace, closing
brace, the scan matches the name "x$\x7b" and consumes the empty-form
characters, so the output no longer contains them. -/
theorem C9_counterexample :
    containsEmptyForm ("$\x7bx$\x7b\x7d" : String).data = true ∧
    substitute_vars "$\x7bx$\x7b\x7d" [("x$\x7b", "v")] = Except.ok "v" ∧
    containsEmptyForm ("v" : String).data = false := by
  refine ⟨by decide, by decide, by decide⟩

/-- C9 (amended): an occurrence of the empty-name form never itself
matches the substitution pattern: whenever it is not preceded by a dollar
sign earlier in the text (which could start a match absorbing it), the
scan emits it verbatim, continues after it, and it contributes no
missing-variable failure — the error is exactly that of the remainder. -/
theorem C9_theorem (vars : Env) (pre post : List Char) (hpre : '$' ∉ pre) :
    substRun vars SubstState.outside
        (pre ++ '$' :: lbrace :: rbrace :: post) =
      (pre ++ '$' :: lbrace :: rbrace ::
          (substRun vars SubstState.outside post).1,
        (substRun vars SubstState.outside post).2) := by
  rw [substRun_prefix_id vars pre hpre]
  have hstep : substRun vars SubstState.outside
      ('$' :: lbrace :: rbrace :: post) =
      ('$' :: lbrace :: rbrace :: (substRun vars SubstState.outside post).1,
        (substRun vars SubstState.outside post).2) := by
    simp [substRun]
  rw [hstep]

/-- C9, witness of the amended theorem at a concrete input. -/
theorem C9_witness :
    substRun [] SubstState.outside
        ('a' :: '$' :: lbrace :: rbrace :: ['b']) =
      ('a' :: '$' :: lbrace :: rbrace :: ['b'], none) := by
  have h := C9_theorem [] ['a'] ['b'] (by decide)
  have h2 : substRun ([] : Env) SubstState.outside ['b'] = (['b'], none) := by
    decide
  rw [h2] at h
  simpa using h

/-! ### Claims about the action compiler (C4, C5, C7, C8) -/

/-- C4: on every command sequence on which `build` succeeds, the output
action list's positions are exactly the positions of the action-producing
input commands in the same relative order; in particular if the input
positions are non-decreasing, so are the output positions. -/
theorem C4_theorem {α : Type} (B : Builders α) (vars0 : Env)
    (cmds : List PosCommand) (acts : List (PosAction α))
    (h : build B vars0 cmds = Except.ok acts) :
    acts.map (fun a => a.pos) =
      (cmds.filter producesAction).map (fun c => c.pos) ∧
    (List.Pairwise (· ≤ ·) (cmds.map (fun c => c.pos)) →
      List.Pairwise (· ≤ ·) (acts.map (fun a => a.pos))) := by
  unfold build at h
  rcases hb : buildLoop B cmds vars0 DEFAULT_SQL_TIMEOUT with e | res
  · rw [hb] at h; cases h
  · rw [hb] at h
    rcases res with ⟨acts1, v2, t2⟩
    simp at h
    subst h
    have hm := buildLoop_positions B cmds vars0 DEFAULT_SQL_TIMEOUT
      (acts1, v2, t2) hb
    refine ⟨hm, ?_⟩
    intro hp
    rw [hm]
    have hsub : List.Sublist
        ((cmds.filter producesAction).map (fun c => c.pos))
        (cmds.map (fun c => c.pos)) :=
      (List.filter_sublist cmds).map (fun c => c.pos)
    exact hp.sublist hsub

/-- C4, witness: a set command produces no action; the Sql and FailSql
commands produce actions at their own positions, in order. -/
theorem C4_witness :
    ([(⟨2, ()⟩ : PosAction Unit), ⟨4, ()⟩].map (fun a => a.pos) =
      ([(⟨1, Command.Builtin ⟨"set", [("x", "1")], []⟩⟩ : PosCommand),
        ⟨2, Command.Sql ⟨"SELECT 1", SqlExpectedResult.Other⟩⟩,
        ⟨4, Command.FailSql ⟨"SELECT 2", "boom"⟩⟩].filter
          producesAction).map (fun c => c.pos)) :=
  (C4_theorem sampleBuilders []
      [⟨1, Command.Builtin ⟨"set", [("x", "1")], []⟩⟩,
       ⟨2, Command.Sql ⟨"SELECT 1", SqlExpectedResult.Other⟩⟩,
       ⟨4, Command.FailSql ⟨"SELECT 2", "boom"⟩⟩]
      [⟨2, ()⟩, ⟨4, ()⟩] (by decide)).1

/-- C5: a set-sql-timeout command with duration "default" (after
case-insensitive lowering) resets the timeout for the continuation to the
default; with a parseable duration it sets the timeout to the parsed
value; in both cases it produces no action (the compilation of the
remaining commands is the entire result).  A Sql (resp. FailSql) command
is bound to the timeout in force when it is compiled.  A set-sql-timeout
never affects actions compiled from commands that precede it: the prefix's
actions are unchanged. -/
theorem C5_theorem {α : Type} (B : Builders α) (vars : Env) (t : Nat)
    (rest : List PosCommand) (p : Nat) (d : String) (hd : '$' ∉ d.data) :
    (lowercase d = "default" →
      buildLoop B (setSqlTimeoutCmd p d :: rest) vars t =
        buildLoop B rest vars DEFAULT_SQL_TIMEOUT) ∧
    (∀ dur : Nat, lowercase d ≠ "default" →
      B.parse_duration d = Except.ok dur →
      buildLoop B (setSqlTimeoutCmd p d :: rest) vars t =
        buildLoop B rest vars dur) ∧
    (∀ (p2 : Nat) (q q2 : String) (a : α) (rest2 : List PosCommand),
      substitute_vars q vars = Except.ok q2 →
      B.build_sql ⟨q2, SqlExpectedResult.Other⟩ t = Except.ok a →
      buildLoop B (⟨p2, Command.Sql ⟨q, SqlExpectedResult.Other⟩⟩ :: rest2)
          vars t =
        match buildLoop B rest2 vars t with
        | Except.error e => Except.error e
        | Except.ok (acts, v2, t2) => Except.ok (⟨p2, a⟩ :: acts, v2, t2)) ∧
    (∀ (p2 : Nat) (q q2 er er2 : String) (a : α) (rest2 : List PosCommand),
      substitute_vars q vars = Except.ok q2 →
      substitute_vars er vars = Except.ok er2 →
      B.build_fail_sql ⟨q2, er2⟩ t = Except.ok a →
      buildLoop B (⟨p2, Command.FailSql ⟨q, er⟩⟩ :: rest2) vars t =
        match buildLoop B rest2 vars t with
        | Except.error e => Except.error e
        | Except.ok (acts, v2, t2) => Except.ok (⟨p2, a⟩ :: acts, v2, t2)) ∧
    (∀ (cs1 : List PosCommand) (a1 : List (PosAction α)) (v1 : Env) (t1 : Nat),
      buildLoop B cs1 vars t = Except.ok (a1, v1, t1) →
      buildLoop B (cs1 ++ setSqlTimeoutCmd p d :: rest) vars t =
        match buildLoop B (setSqlTimeoutCmd p d :: rest) v1 t1 with
        | Except.error e => Except.error e
        | Except.ok (a2, v2, t2) => Except.ok (a1 ++ a2, v2, t2)) := by
  have hsub : ∀ (vs : Env), substValues vs p [("duration", d)] =
      Except.ok [("duration", d)] := by
    intro vs
    apply substValues_clean
    intro kv hkv
    simp at hkv
    rw [hkv]
    exact hd
  refine ⟨?_, ?_, ?_, ?_, ?_⟩
  · intro hdef
    simp [buildLoop, setSqlTimeoutCmd, hsub, substLines, argsString,
      lookupVar, hdef]
  · intro dur hdef hpd
    simp [buildLoop, setSqlTimeoutCmd, hsub, substLines, argsString,
      lookupVar, hdef, hpd]
  · intro p2 q q2 a rest2 hq hbs
    simp [buildLoop, hq, substExpected, hbs]
  · intro p2 q q2 er er2 a rest2 hq her hbs
    simp [buildLoop, hq, her, hbs]
  · intro cs1 a1 v1 t1 h1
    rw [buildLoop_append B cs1 (setSqlTimeoutCmd p d :: rest) vars t, h1]

/-- C5, witness: "default" resets the continuation's timeout to the
default; "30s" sets it to thirty seconds, binding the following Sql
action's timeout. -/
theorem C5_witness :
    buildLoop sampleBuilders [setSqlTimeoutCmd 1 "default"] [] 5 =
      Except.ok ([], [], DEFAULT_SQL_TIMEOUT) ∧
    buildLoop sampleBuilders [setSqlTimeoutCmd 1 "30s",
        ⟨2, Command.Sql ⟨"SELECT 1", SqlExpectedResult.Other⟩⟩] [] 5 =
      Except.ok ([⟨2, ()⟩], [], 30000) := by
  constructor
  · rw [(C5_theorem sampleBuilders [] 5 [] 1 "default" (by decide)).1
      (by decide)]
    decide
  · rw [(C5_theorem sampleBuilders [] 5
      [⟨2, Command.Sql ⟨"SELECT 1", SqlExpectedResult.Other⟩⟩] 1 "30s"
      (by decide)).2.1 30000 (by decide) (by decide)]
    decide

/-- C7: a builtin command whose name is not in the fixed dispatch table
makes compilation fail with an input error naming the unknown builtin and
carrying that command's source position; the whole batch is aborted: no
action list is produced even when a prefix compiles successfully. -/
theorem C7_theorem {α : Type} (B : Builders α) (b : BuiltinCmd)
    (hname : b.name ∉ knownBuiltins)
    (hargs : ∀ kv ∈ b.args, '$' ∉ (kv.2 : String).data)
    (hinput : ∀ s ∈ b.input, '$' ∉ (s : String).data) :
    (∀ (vars : Env) (t p : Nat) (rest : List PosCommand),
      buildLoop B (⟨p, Command.Builtin b⟩ :: rest) vars t =
        Except.error ⟨"unknown built-in command " ++ b.name, p⟩) ∧
    (∀ (vars0 : Env) (cs1 rest : List PosCommand) (p : Nat)
      (r1 : List (PosAction α) × Env × Nat),
      buildLoop B cs1 vars0 DEFAULT_SQL_TIMEOUT = Except.ok r1 →
      build B vars0 (cs1 ++ ⟨p, Command.Builtin b⟩ :: rest) =
        Except.error ⟨"unknown built-in command " ++ b.name, p⟩) := by
  have hne : ∀ s, s ∈ knownBuiltins → b.name ≠ s :=
    fun s hs he => hname (he ▸ hs)
  have hd : builtinDispatch B ⟨b.name, b.args, b.input⟩ = none :=
    builtinDispatch_unknown B ⟨b.name, b.args, b.input⟩ (by simpa using hname)
  have hhead : ∀ (vars : Env) (t p : Nat) (rest : List PosCommand),
      buildLoop B (⟨p, Command.Builtin b⟩ :: rest) vars t =
        Except.error ⟨"unknown built-in command " ++ b.name, p⟩ := by
    intro vars t p rest
    simp [buildLoop, substValues_clean vars p b.args hargs,
      substLines_clean vars p b.input hinput,
      hne "set-sql-timeout" (by decide), hne "set-execution-count" (by decide),
      hne "set" (by decide), hd]
  refine ⟨hhead, ?_⟩
  intro vars0 cs1 rest p r1 h1
  unfold build
  rw [buildLoop_append B cs1 (⟨p, Command.Builtin b⟩ :: rest) vars0
    DEFAULT_SQL_TIMEOUT, h1]
  rcases r1 with ⟨a1, v1, t1⟩
  simp [hhead v1 t1 p rest]

/-- C7, witness: an unknown builtin command aborts compilation with an
error naming it and its position, even after a successful prefix. -/
theorem C7_witness :
    buildLoop sampleBuilders
        [⟨7, Command.Builtin ⟨"bogus-command", [], []⟩⟩] [] 0 =
      Except.error ⟨"unknown built-in command " ++ "bogus-command", 7⟩ :=
  (C7_theorem sampleBuilders ⟨"bogus-command", [], []⟩ (by decide)
      (by simp) (by simp)).1 [] 0 7 []

/-- C8: a set command merges its already-substituted argument mapping
wholesale into the variable environment and produces no action (the
compilation of the remaining commands, from the extended environment, is
the entire result).  The merge is last-write-wins per key: a key bound in
the arguments reads back its last bound argument value, regardless of any
previous binding — nothing structurally prevents overwriting the reserved
session built-ins; a key not bound in the arguments keeps its previous
value. -/
theorem C8_theorem {α : Type} (B : Builders α) (vars : Env) (t p : Nat)
    (args : Env) (input : List String) (args2 : Env) (input2 : List String)
    (rest : List PosCommand)
    (hargs : substValues vars p args = Except.ok args2)
    (hinput : substLines vars p input = Except.ok input2) :
    buildLoop B (⟨p, Command.Builtin ⟨"set", args, input⟩⟩ :: rest) vars t =
      buildLoop B rest (extendVars vars args2) t ∧
    (∀ k : String, lookupVar (extendVars vars args2) k =
      match lookupVar args2.reverse k with
      | some v => some v
      | none => lookupVar vars k) := by
  constructor
  · simp [buildLoop, hargs, hinput]
  · intro k
    rw [extendVars_eq, lookupVar_append]

/-- C8, witness: a set command whose key collides with a session built-in
variable overwrites it, and produces no action. -/
theorem C8_witness :
    buildLoop sampleBuilders
        [⟨1, Command.Builtin ⟨"set", [("testdrive.seed", "2")], []⟩⟩]
        [("testdrive.seed", "1")] 0 =
      buildLoop sampleBuilders []
        (extendVars [("testdrive.seed", "1")] [("testdrive.seed", "2")]) 0 ∧
    lookupVar (extendVars [("testdrive.seed", "1")] [("testdrive.seed", "2")])
        "testdrive.seed" = some "2" := by
  have h := C8_theorem sampleBuilders [("testdrive.seed", "1")] 0 1
    [("testdrive.seed", "2")] [] [("testdrive.seed", "2")] [] []
    (by decide) (by decide)
  exact ⟨h.1, by decide⟩

/-! ### Claims about the session reset operations (C3, C6, C10) -/

/-- C3, counterexample: with a database listing holding a, b and the
default database, the claim says drop statements are issued for exactly a
and b followed by the create statement; but the code drops every row of
the listing, the default database included, so a third drop statement is
issued. -/
theorem C3_counterexample :
    reset_materialized (Except.ok ["a", "b", "materialize"])
        (fun _ => none) none =
      (["DROP DATABASE a", "DROP DATABASE b", "DROP DATABASE materialize",
        "CREATE DATABASE materialize"], Except.ok ()) ∧
    "DROP DATABASE materialize" ∈
      (reset_materialized (Except.ok ["a", "b", "materialize"])
        (fun _ => none) none).1 := by
  refine ⟨by decide, by decide⟩

/-- C3 (amended): against a listing of a, b and the default database,
when everything succeeds the issued statements are the drops of all three
listed databases in listing order followed by the create statement; if
dropping a fails, the error (naming the drop of a) is returned
immediately, the drop of a is the only statement issued, so no create
statement is issued and b is never dropped. -/
theorem C3_theorem (a b : String) (dropRes : String → Option String)
    (createRes : Option String) (e : String) :
    ((∀ n, dropRes n = none) → createRes = none →
      reset_materialized (Except.ok [a, b, "materialize"]) dropRes createRes =
        ([dropQuery a, dropQuery b, dropQuery "materialize",
          "CREATE DATABASE materialize"], Except.ok ())) ∧
    (dropRes a = some e →
      reset_materialized (Except.ok [a, b, "materialize"]) dropRes createRes =
        ([dropQuery a],
          Except.error ("resetting materialized state: " ++ dropQuery a))) := by
  constructor
  · intro hdrop hcreate
    simp [reset_materialized, dropDatabases, hdrop, hcreate]
  · intro hfail
    simp [reset_materialized, dropDatabases, hfail]

/-- C3, witness of the amended theorem: dropping a fails, so only the
drop of a is issued. -/
theorem C3_witness :
    reset_materialized (Except.ok ["a", "b", "materialize"])
        (fun n => if n = "a" then some "boom" else none) none =
      ([dropQuery "a"],
        Except.error ("resetting materialized state: " ++ dropQuery "a")) :=
  ( C3_theorem "a" "b" (fun n => if n = "a" then some "boom" else none)
      none "boom").2 (by decide)

/-- C6: deleting the registry [s1, s2, s3] where s1's deletion succeeds
and s2's fails: s1 is deleted, the error names s2, no further deletion is
attempted so s3 is not deleted, and the registry afterwards still holds
all three names. -/
theorem C6_theorem (s1 s2 s3 e : String) (del : String → Option String)
    (h1 : del s1 = none) (h2 : del s2 = some e) :
    reset_kinesis ⟨[s1, s2, s3]⟩ del =
      (⟨[s1, s2, s3]⟩, [s1],
        Except.error ("deleting Kinesis stream: " ++ s2)) ∧
    ((reset_kinesis ⟨[s1, s2, s3]⟩ del).1).kinesis_stream_names =
      [s1, s2, s3] := by
  constructor
  · simp [reset_kinesis, deleteStreams, h1, h2]
  · simp [reset_kinesis]

/-- C6, witness at concrete streams where deleting the second fails. -/
theorem C6_witness :
    reset_kinesis ⟨["s1", "s2", "s3"]⟩
        (fun s => if s = "s2" then some "x" else none) =
      (⟨["s1", "s2", "s3"]⟩, ["s1"],
        Except.error ("deleting Kinesis stream: " ++ "s2")) :=
  ( C6_theorem "s1" "s2" "s3" "x"
      (fun s => if s = "s2" then some "x" else none)
      (by decide) (by decide)).1

/-- C10: `reset_kinesis` never removes entries from the stream registry:
for every session state and every deletion outcome, the state after the
call (success or failure) carries the same registry as before. -/
theorem C10_theorem (st : KinesisState) (del : String → Option String) :
    (reset_kinesis st del).1 = st := by
  unfold reset_kinesis
  split <;> rfl

end Testdrive
